import Mathlib

/-!
Verification of the README-synchronization core of the smart-commit CLI
(src/index.ts).  The drift heuristic `shouldUpdateReadme`, the response
normalization performed in `handleReadmeUpdate` and `checkAndUpdateReadme`,
and the observable control flow of both update flows are embedded as
executable Lean functions over `String` / `List Char`.

Conventions of the embedding:
* a JavaScript string is a `String` (a `List Char` internally);
* `diff.split('\n')` is `splitNl`; `s.includes(pat)` is `hasSub`;
* the regular expressions of `significantPatterns` (src/index.ts:365-373)
  are compiled by hand into decidable matchers; the JS `m` flag makes `^`
  match at the string start and after a line terminator (we model the two
  ASCII terminators LF and CR); `.` matches anything except a line
  terminator; the class of the JS escape `\s` and of `String.trim` is
  modelled by `jsWs` (the six ASCII whitespace characters; exotic Unicode
  space code points do not occur in the inputs considered here);
* the interactive prompts, the completion service and the file system are
  the caller-supplied parameters of the flow functions; one invocation of
  the flow performs at most one service interaction, so the response is a
  single `ServiceResp` value.
-/

set_option maxRecDepth 40000

namespace SmartCommit

/-- The six ASCII characters matched by the JS whitespace class. -/
def jsWs (c : Char) : Bool :=
  c == ' ' || c == '\t' || c == '\n' || c == '\r' || c == '\x0b' || c == '\x0c'

/-- The JS word class: ASCII letters, digits and the underscore. -/
def isWordChar (c : Char) : Bool :=
  c.isAlpha || c.isDigit || c == '_'

/-- Line terminators recognised by the JS regex engine (ASCII part). -/
def isLineTerm (c : Char) : Bool :=
  c == '\n' || c == '\r'

/-- The backtick character (code point 96). -/
def btChar : Char := Char.ofNat 96

/-- Literal-prefix test on character lists. -/
def startsList : List Char → List Char → Bool
  | [], _ => true
  | _ :: _, [] => false
  | p :: ps, c :: cs => p == c && startsList ps cs

/-- Strip a literal prefix, returning the remainder when it is present. -/
def dropLit : List Char → List Char → Option (List Char)
  | [], s => some s
  | _ :: _, [] => none
  | p :: ps, c :: cs => if p == c then dropLit ps cs else none

/-- Substring occurrence, the JS `String.prototype.includes`. -/
def hasSub (pat : List Char) : List Char → Bool
  | [] => startsList pat []
  | c :: cs => startsList pat (c :: cs) || hasSub pat cs

/-- `split('\n')`: the pieces of a character list between LF characters. -/
def splitNl : List Char → List (List Char)
  | [] => [[]]
  | c :: cs =>
    if c == '\n' then [] :: splitNl cs
    else
      match splitNl cs with
      | [] => [[c]]
      | l :: ls => (c :: l) :: ls

/-- `.*B`: the body `B` matches at some position reachable without
crossing a line terminator. -/
def dotStarThen (body : List Char → Bool) : List Char → Bool
  | [] => body []
  | c :: cs => body (c :: cs) || (!isLineTerm c && dotStarThen body cs)

/-- The pattern matches just after some line terminator of the text. -/
def matchAfterNl (p : List Char → Bool) : List Char → Bool
  | [] => false
  | c :: cs => (isLineTerm c && p cs) || matchAfterNl p cs

/-- `m`-flag anchored test: the pattern matches at the string start or
after a line terminator. -/
def matchMultiline (p : List Char → Bool) (cs : List Char) : Bool :=
  p cs || matchAfterNl p cs

/-- `[+].*B`: a plus sign, then the body somewhere in the same line. -/
def plusDotStar (body : List Char → Bool) : List Char → Bool
  | [] => false
  | c :: cs => c == '+' && dotStarThen body cs

/-- `kw\s+`: the keyword literal followed by one whitespace character. -/
def kwWsBody (kw : List Char) (cs : List Char) : Bool :=
  match dropLit kw cs with
  | some (c :: _) => jsWs c
  | _ => false

/-- `type\s+\w+\s*=` (the involved character classes are pairwise
disjoint, so greedy scanning is exact). -/
def typeAliasBody (cs : List Char) : Bool :=
  match dropLit ("type".toList) cs with
  | some rest =>
    !(rest.takeWhile jsWs).isEmpty &&
    (let r1 := rest.dropWhile jsWs
     !(r1.takeWhile isWordChar).isEmpty &&
     (match (r1.dropWhile isWordChar).dropWhile jsWs with
      | c :: _ => c == '='
      | [] => false))
  | none => false

/-- `=.*require`: an equals sign, then the literal in the same line. -/
def eqDotRequire : List Char → Bool
  | c :: cs => c == '=' && dotStarThen (fun ds => startsList ("require".toList) ds) cs
  | [] => false

/-- `const\s+\w+.*=.*require`. -/
def constReqBody (cs : List Char) : Bool :=
  match dropLit ("const".toList) cs with
  | some rest =>
    !(rest.takeWhile jsWs).isEmpty &&
    (match rest.dropWhile jsWs with
     | c :: r2 => isWordChar c && dotStarThen eqDotRequire r2
     | [] => false)
  | none => false

/-- `import.*from`. -/
def importFromBody (cs : List Char) : Bool :=
  match dropLit ("import".toList) cs with
  | some rest => dotStarThen (fun ds => startsList ("from".toList) ds) rest
  | none => false

/-- Signal pattern 1 of src/index.ts:366. -/
def sigFunction (cs : List Char) : Bool :=
  matchMultiline (plusDotStar (kwWsBody ("function".toList))) cs

/-- Signal pattern 2 of src/index.ts:367. -/
def sigClass (cs : List Char) : Bool :=
  matchMultiline (plusDotStar (kwWsBody ("class".toList))) cs

/-- Signal pattern 3 of src/index.ts:368. -/
def sigExport (cs : List Char) : Bool :=
  matchMultiline (plusDotStar (kwWsBody ("export".toList))) cs

/-- Signal pattern 4 of src/index.ts:369. -/
def sigInterface (cs : List Char) : Bool :=
  matchMultiline (plusDotStar (kwWsBody ("interface".toList))) cs

/-- Signal pattern 5 of src/index.ts:370. -/
def sigTypeAlias (cs : List Char) : Bool :=
  matchMultiline (plusDotStar typeAliasBody) cs

/-- Signal pattern 6 of src/index.ts:371. -/
def sigRequire (cs : List Char) : Bool :=
  matchMultiline (plusDotStar constReqBody) cs

/-- Signal pattern 7 of src/index.ts:372. -/
def sigImport (cs : List Char) : Bool :=
  matchMultiline (plusDotStar importFromBody) cs

/-- The battery of signal patterns, in source order (src/index.ts:365-373). -/
def significantPatterns : List (List Char → Bool) :=
  [sigFunction, sigClass, sigExport, sigInterface, sigTypeAlias, sigRequire, sigImport]

/-- The literal tested on src/index.ts:360. -/
def readmeHdrA : String := "diff --git a/README.md"

/-- The second literal tested on src/index.ts:360. -/
def readmeHdrB : String := "diff --git b/README.md"

/-- `s.includes(pat)` on strings. -/
def hasSubStr (pat s : String) : Bool := hasSub pat.toList s.toList

/-- src/index.ts:376: the lines of the diff starting with a plus sign
(the `+++` file header included, as the source counts it). -/
def addedLineCount (diff : String) : Nat :=
  ((splitNl diff.toList).filter (fun l => startsList ['+'] l)).length

/-- The drift heuristic, src/index.ts:358-380. -/
def shouldUpdateReadme (diff : String) : Bool :=
  if hasSubStr readmeHdrA diff || hasSubStr readmeHdrB diff then false
  else if addedLineCount diff < 10 then false
  else significantPatterns.any (fun p => p diff.toList)

/-- Modelled from the spec: the count the spec describes, lines whose
first character is a plus sign excluding the `+++` diff-header record.
Written to compare with the source's `addedLineCount`. -/
def specAddedLineCount (diff : String) : Nat :=
  ((splitNl diff.toList).filter
    (fun l => startsList ['+'] l && !startsList ['+', '+', '+'] l)).length

/-!
Normalization of a completion response, src/index.ts:440-443 and 538-539:
trim, then `replace(/^X\n?/gm, '')` for the markdown fence literal and
then for the bare fence literal, then trim again.  A `g`-flag replace
collects its matches left to right on the original string, so scanning
resumes right after each removed match, and the `m`-flag anchor status of
a position is determined by the character preceding it in the scanned
string.  The boolean argument below carries exactly that anchor status.
-/

/-- One global multiline replace of the literal fence regex for the
markdown fence: at every anchored position, drop the literal and one
optional LF.  A position is anchored when the flag says so; after an
emitted character `c` the next position is anchored exactly when `c` is a
line terminator, and after a removed fence it is anchored exactly when
the optional LF was consumed.  A suffix shorter than the fence literal
cannot contain a match and is emitted by the catch-all equation. -/
def removeFenceMd : Bool → List Char → List Char
  | _, [] => []
  | atStart, c :: c2 :: c3 :: 'm' :: 'a' :: 'r' :: 'k' :: 'd' :: 'o' :: 'w' :: 'n' :: [] =>
    if atStart && c == btChar && c2 == btChar && c3 == btChar then []
    else c :: removeFenceMd (isLineTerm c) (c2 :: c3 :: 'm' :: 'a' :: 'r' :: 'k' :: 'd' :: 'o' :: 'w' :: 'n' :: [])
  | atStart, c :: c2 :: c3 :: 'm' :: 'a' :: 'r' :: 'k' :: 'd' :: 'o' :: 'w' :: 'n' :: nl :: rest2 =>
    if atStart && c == btChar && c2 == btChar && c3 == btChar then
      if nl == '\n' then removeFenceMd true rest2
      else nl :: removeFenceMd (isLineTerm nl) rest2
    else c :: removeFenceMd (isLineTerm c) (c2 :: c3 :: 'm' :: 'a' :: 'r' :: 'k' :: 'd' :: 'o' :: 'w' :: 'n' :: nl :: rest2)
  | _, c :: cs => c :: removeFenceMd (isLineTerm c) cs

/-- One global multiline replace of the bare triple-backtick fence:
at every anchored position, drop the three backticks and one optional
LF; a character emitted because no match starts at its position leaves
the following position anchored exactly when it is a line terminator. -/
def removeFenceBt : Bool → List Char → List Char
  | _, [] => []
  | _, [c] => [c]
  | _, [c, c2] => [c, c2]
  | atStart, [c, c2, c3] =>
    if atStart && c == btChar && c2 == btChar && c3 == btChar then []
    else c :: removeFenceBt (isLineTerm c) [c2, c3]
  | atStart, c :: c2 :: c3 :: nl :: rest2 =>
    if atStart && c == btChar && c2 == btChar && c3 == btChar then
      if nl == '\n' then removeFenceBt true rest2
      else nl :: removeFenceBt (isLineTerm nl) rest2
    else c :: removeFenceBt (isLineTerm c) (c2 :: c3 :: nl :: rest2)

/-- The JS `String.prototype.trim` (ASCII whitespace). -/
def jsTrim (cs : List Char) : List Char :=
  ((cs.dropWhile jsWs).reverse.dropWhile jsWs).reverse

/-- The full normalization applied to a completion response by both
flows: trim, strip markdown fences, strip bare fences, trim. -/
def normalizeResp (raw : String) : String :=
  String.mk (jsTrim (removeFenceBt true (removeFenceMd true (jsTrim raw.toList))))

/-- The single interaction with the completion service: it returns text
or throws. -/
inductive ServiceResp where
  | ok (text : String)
  | err
deriving DecidableEq

/-- Sentinel literal of the diff-driven flow, src/index.ts:447. -/
def sentinelNoUpdate : String := "NO_UPDATE_NEEDED"

/-- Sentinel literal of the alignment-check flow, src/index.ts:543. -/
def sentinelAccurate : String := "README_IS_ACCURATE"

/-- Baseline substituted when README.md cannot be read, src/index.ts:404. -/
def placeholderReadme : String := "# Project\n\nNo README found."

/-- The outcome of one run of `handleReadmeUpdate` that is observable to
the caller and to the file system: whether the completion service was
invoked, what (if anything) was written to README.md, whether it was
staged, the returned boolean, and whether the catch handler reported a
failure. -/
structure HandleResult where
  serviceCalled : Bool
  written : Option String
  staged : Bool
  retval : Bool
  failed : Bool
deriving DecidableEq

/-- src/index.ts:383-480.  Parameters: the answer to the first confirm
prompt, the README file contents (`none` when reading throws), the
completion-service interaction, and the answer to the apply prompt.  The
package.json read only feeds prompt text and cannot affect the outcome,
so it is not a parameter. -/
def handleReadmeUpdate (updAns : Bool) (readmeFile : Option String)
    (resp : ServiceResp) (applyAns : Bool) : HandleResult :=
  if !updAns then ⟨false, none, false, false, false⟩
  else
    let currentReadme := readmeFile.getD placeholderReadme
    match resp with
    | ServiceResp.err => ⟨true, none, false, false, true⟩
    | ServiceResp.ok raw =>
      let updated := normalizeResp raw
      if updated == sentinelNoUpdate || updated == currentReadme then
        ⟨true, none, false, false, false⟩
      else if applyAns then ⟨true, some updated, true, true, false⟩
      else ⟨true, none, false, false, false⟩

/-- The README segment of `processDiffAndCommit`, src/index.ts:304-310:
the update handler runs only when the heuristic fires; otherwise the
commit flow proceeds with no proposal, no service call and no write. -/
def processDiffReadmeStep (diff : String) (readmeFile : Option String)
    (updAns : Bool) (resp : ServiceResp) (applyAns : Bool) : HandleResult :=
  if shouldUpdateReadme diff then handleReadmeUpdate updAns readmeFile resp applyAns
  else ⟨false, none, false, false, false⟩

/-- Failure message of src/index.ts:494. -/
def failMsgNoReadme : String := "README.md not found"

/-- Failure message of src/index.ts:511. -/
def failMsgNoFiles : String := "No code files found to analyze"

/-- Failure message of src/index.ts:587. -/
def failMsgService : String := "Failed to analyze README"

/-- The observable outcome of one run of `checkAndUpdateReadme`. -/
structure CheckResult where
  serviceCalled : Bool
  written : Option String
  staged : Bool
  committed : Bool
  failMsg : Option String
deriving DecidableEq

/-- src/index.ts:483-590.  Parameters: the three file reads (`none` when
the read throws), the completion-service interaction, and the answers to
the apply and stage prompts. -/
def checkAndUpdateReadme (readmeFile indexFile pkgFile : Option String)
    (resp : ServiceResp) (applyAns stageAns : Bool) : CheckResult :=
  match readmeFile with
  | none => ⟨false, none, false, false, some failMsgNoReadme⟩
  | some currentReadme =>
    if indexFile.isNone && pkgFile.isNone then
      ⟨false, none, false, false, some failMsgNoFiles⟩
    else
      match resp with
      | ServiceResp.err => ⟨true, none, false, false, some failMsgService⟩
      | ServiceResp.ok raw =>
        let analysis := normalizeResp raw
        if analysis == sentinelAccurate || analysis == currentReadme then
          ⟨true, none, false, false, none⟩
        else if applyAns then ⟨true, some analysis, stageAns, stageAns, none⟩
        else ⟨true, none, false, false, none⟩

/-!  Concrete inputs used by counterexamples and witnesses.  -/

/-- A staged diff of a TypeScript file with ten added export lines. -/
def wDiffBig : String :=
  "diff --git a/src/app.ts b/src/app.ts\n--- a/src/app.ts\n+++ b/src/app.ts\n+export const a1 = 1\n+export const a2 = 1\n+export const a3 = 1\n+export const a4 = 1\n+export const a5 = 1\n+export const a6 = 1\n+export const a7 = 1\n+export const a8 = 1\n+export const a9 = 1\n+export const a10 = 1\n"

/-- A rename diff whose header mentions b/README.md without containing
either of the two literals the source tests. -/
def wDiffRename : String :=
  "diff --git a/OLD.md b/README.md\n--- a/OLD.md\n+++ b/README.md\n+export const a1 = 1\n+export const a2 = 1\n+export const a3 = 1\n+export const a4 = 1\n+export const a5 = 1\n+export const a6 = 1\n+export const a7 = 1\n+export const a8 = 1\n+export const a9 = 1\n+export const a10 = 1\n"

/-- A diff with nine added lines plus the `+++` header record. -/
def wDiffNine : String :=
  "diff --git a/src/app.ts b/src/app.ts\n--- a/src/app.ts\n+++ b/src/app.ts\n+export const a1 = 1\n+export const a2 = 1\n+export const a3 = 1\n+export const a4 = 1\n+export const a5 = 1\n+export const a6 = 1\n+export const a7 = 1\n+export const a8 = 1\n+export const a9 = 1\n"

/-- A diff that modifies only README.md, with ten added export lines. -/
def wDiffReadme : String :=
  "diff --git a/README.md b/README.md\n--- a/README.md\n+++ b/README.md\n+export const a1 = 1\n+export const a2 = 1\n+export const a3 = 1\n+export const a4 = 1\n+export const a5 = 1\n+export const a6 = 1\n+export const a7 = 1\n+export const a8 = 1\n+export const a9 = 1\n+export const a10 = 1\n"

/-- A small diff: one added line. -/
def wDiffSmall : String :=
  "diff --git a/a.ts b/a.ts\n+export const x = 1\n"

/-- The anchor status after scanning a list of emitted characters: the
initial status when the list is empty, else whether its last character
is a line terminator. -/
def anchorAfter (flag : Bool) (x : List Char) : Bool :=
  x.foldl (fun _ c => isLineTerm c) flag

/-- A baseline document used by concrete instances. -/
def wBaseline : String := "# X"

/-- A second baseline document used by concrete instances. -/
def wBaseline2 : String := "base"

/-- A completion response whose first line starts with whitespace
followed by a fence. -/
def wPlain : String := " ```a"

/-- The same response pre-wrapped in triple-backtick fences. -/
def wWrapped : String := "```\n ```a\n```"

/-- A plain candidate document. -/
def wNewDoc : String := "new doc"

/-- A plain backtick-free trimmed response. -/
def wHello : String := "hello world"

/-- A response whose only fence line is interior. -/
def wInteriorFence : String := "a\n```\nb"

/-!  ## Helper lemmas  -/

theorem handle_written_none_of_not_apply (u : Bool) (r : Option String) (s : ServiceResp) :
    (handleReadmeUpdate u r s false).written = none := by
  cases u <;> cases s <;> simp [handleReadmeUpdate]

theorem check_written_none_of_not_apply (rf i p : Option String) (s : ServiceResp) (st : Bool) :
    (checkAndUpdateReadme rf i p s false st).written = none := by
  cases rf <;> cases i <;> cases p <;> cases s <;> simp [checkAndUpdateReadme]

/-!  ## Claim theorems  -/

/-- C1: in both flows the candidate document is never silently applied:
README.md is written only when the apply prompt was answered
affirmatively, and a negative answer always yields no write. -/
theorem approval_gates_write (u : Bool) (r : Option String) (s : ServiceResp) (a : Bool)
    (rf i p : Option String) (s2 : ServiceResp) (a2 st : Bool) :
    (a = false → (handleReadmeUpdate u r s a).written = none) ∧
    ((handleReadmeUpdate u r s a).written.isSome = true → a = true) ∧
    (a2 = false → (checkAndUpdateReadme rf i p s2 a2 st).written = none) ∧
    ((checkAndUpdateReadme rf i p s2 a2 st).written.isSome = true → a2 = true) := by
  refine ⟨?_, ?_, ?_, ?_⟩
  · intro ha; subst ha; exact handle_written_none_of_not_apply u r s
  · cases a with
    | true => exact fun _ => rfl
    | false =>
      intro h
      rw [handle_written_none_of_not_apply] at h
      exact Bool.noConfusion h
  · intro ha; subst ha; exact check_written_none_of_not_apply rf i p s2 st
  · cases a2 with
    | true => exact fun _ => rfl
    | false =>
      intro h
      rw [check_written_none_of_not_apply] at h
      exact Bool.noConfusion h

/-- C1 witness: with the apply prompt declined, nothing is written. -/
theorem approval_gates_write_w :
    (handleReadmeUpdate true (some wBaseline) (ServiceResp.ok wNewDoc) false).written = none :=
  (approval_gates_write true (some wBaseline) (ServiceResp.ok wNewDoc) false
    none none none ServiceResp.err false false).1 rfl

/-- C2: the heuristic returns true exactly when the diff does not contain
either README header literal, the count of lines starting with a plus
sign is at least 10, and some signal pattern matches (each pattern is
anchored at a line start beginning with a plus sign); the first failing
rule decides the result. -/
theorem decision_rule_order (d : String) :
    shouldUpdateReadme d = true ↔
      (hasSubStr readmeHdrA d = false ∧ hasSubStr readmeHdrB d = false ∧
       10 ≤ addedLineCount d ∧ ∃ pat ∈ significantPatterns, pat d.toList = true) := by
  unfold shouldUpdateReadme
  cases hA : hasSubStr readmeHdrA d <;> cases hB : hasSubStr readmeHdrB d <;>
    simp [hA, hB]

/-- C3 counterexample: a response equal to the baseline and a response
equal to the sentinel produce identical observable outcomes, so the code
does not expose identical-to-baseline as an outcome distinct from
no-update-needed. -/
theorem classify_collapse_cex :
    handleReadmeUpdate true (some wBaseline) (ServiceResp.ok wBaseline) true =
      handleReadmeUpdate true (some wBaseline) (ServiceResp.ok sentinelNoUpdate) true ∧
    wBaseline ≠ sentinelNoUpdate := by decide

/-- C3 amended: the normalized response is classified two ways, not
three: equality with the sentinel or with the baseline both yield the
same no-update outcome with no write, and any other text is accepted
with no further validation as the candidate that is written verbatim on
approval. -/
theorem classify_amended (base raw : String) (a : Bool) :
    (normalizeResp raw = sentinelNoUpdate ∨ normalizeResp raw = base →
      handleReadmeUpdate true (some base) (ServiceResp.ok raw) a =
        ⟨true, none, false, false, false⟩) ∧
    (normalizeResp raw ≠ sentinelNoUpdate → normalizeResp raw ≠ base →
      handleReadmeUpdate true (some base) (ServiceResp.ok raw) a =
        (if a then ⟨true, some (normalizeResp raw), true, true, false⟩
         else ⟨true, none, false, false, false⟩)) := by
  constructor
  · intro h
    rcases h with h | h <;> simp [handleReadmeUpdate, h]
  · intro h1 h2
    simp [handleReadmeUpdate, beq_iff_eq, h1, h2]

/-- C3 amended witness: a fresh candidate text is written on approval. -/
theorem classify_amended_w :
    handleReadmeUpdate true (some wBaseline) (ServiceResp.ok wNewDoc) true =
      ⟨true, some (normalizeResp wNewDoc), true, true, false⟩ := by
  have h := (classify_amended wBaseline wNewDoc true).2 (by decide) (by decide)
  simpa using h

/-- C5 counterexample: a rename diff whose header mentions b/README.md
is not gated out: the heuristic still returns true, because the source
only tests two fixed literals that such a header does not contain. -/
theorem readme_gate_cex :
    hasSubStr ("b/README.md") wDiffRename = true ∧
    shouldUpdateReadme wDiffRename = true := by decide

/-- C5 amended: for every diff containing one of the two literals the
source actually tests, the heuristic returns false and the commit flow
makes no completion-service call. -/
theorem readme_literal_gate (d : String)
    (h : hasSubStr readmeHdrA d = true ∨ hasSubStr readmeHdrB d = true) :
    shouldUpdateReadme d = false ∧
    ∀ (rf : Option String) (u : Bool) (s : ServiceResp) (a : Bool),
      (processDiffReadmeStep d rf u s a).serviceCalled = false := by
  have h0 : shouldUpdateReadme d = false := by
    unfold shouldUpdateReadme
    rcases h with h | h <;> simp [h]
  exact ⟨h0, fun rf u s a => by simp [processDiffReadmeStep, h0]⟩

/-- C5 amended witness: a README-only diff is gated out. -/
theorem readme_literal_gate_w : shouldUpdateReadme wDiffReadme = false :=
  (readme_literal_gate wDiffReadme (Or.inl (by decide))).1

/-- C6 counterexample: a diff with nine added lines under the spec's
count (which excludes the `+++` header record) still passes the
threshold, because the source counts the `+++` line as well. -/
theorem added_count_cex :
    specAddedLineCount wDiffNine = 9 ∧ shouldUpdateReadme wDiffNine = true := by decide

/-- C6 amended: the source counts every line whose first character is a
plus sign, the `+++` header record included, and returns false whenever
that count is below 10. -/
theorem small_diff_false (d : String) (h : addedLineCount d < 10) :
    shouldUpdateReadme d = false := by
  unfold shouldUpdateReadme
  split_ifs <;> rfl

/-- C6 amended witness: a one-line diff is rejected. -/
theorem small_diff_false_w : shouldUpdateReadme wDiffSmall = false :=
  small_diff_false wDiffSmall (by decide)

/-- C7: when the completion service throws during the diff-driven flow,
the failure is surfaced (the catch handler reports it), nothing is
written or staged, and the flow returns false exactly as when no update
was proposed, so the primary commit flow proceeds unchanged; the single
response parameter reflects that no retry exists. -/
theorem service_error_best_effort (d : String) (rf : Option String) (a : Bool)
    (h : shouldUpdateReadme d = true) :
    processDiffReadmeStep d rf true ServiceResp.err a =
      ⟨true, none, false, false, true⟩ := by
  simp [processDiffReadmeStep, h, handleReadmeUpdate]

/-- C7 witness: on a diff that fires the heuristic, a service error
leaves no write and a false return. -/
theorem service_error_best_effort_w :
    processDiffReadmeStep wDiffBig none true ServiceResp.err true =
      ⟨true, none, false, false, true⟩ :=
  service_error_best_effort wDiffBig none true (by decide)

/-- C8 counterexample: a diff with at least ten added lines and an added
line matching the export pattern can still be rejected, namely when it
touches README.md, so the claim without that proviso fails. -/
theorem export_gate_cex :
    10 ≤ addedLineCount wDiffReadme ∧ sigExport wDiffReadme.toList = true ∧
    shouldUpdateReadme wDiffReadme = false := by decide

/-- C8 amended: for every diff free of the two README header literals,
with at least ten lines starting with a plus sign and with the export
signal pattern matching, the heuristic returns true. -/
theorem export_signal_true (d : String)
    (hA : hasSubStr readmeHdrA d = false) (hB : hasSubStr readmeHdrB d = false)
    (hn : 10 ≤ addedLineCount d) (hx : sigExport d.toList = true) :
    shouldUpdateReadme d = true := by
  unfold shouldUpdateReadme
  have hx2 : sigExport d.data = true := hx
  simp [hA, hB, Nat.not_lt.mpr hn, significantPatterns, hx2]

/-- C8 amended witness: a ten-export-line diff fires the heuristic. -/
theorem export_signal_true_w : shouldUpdateReadme wDiffBig = true :=
  export_signal_true wDiffBig (by decide) (by decide) (by decide) (by decide)

/-- C10: when README.md cannot be read, the diff-driven flow substitutes
the placeholder baseline and still calls the completion service, while
the alignment-check flow terminates at once with its failure message,
making no service call and no write. -/
theorem missing_readme_divergence (u : Bool) (s : ServiceResp) (a : Bool)
    (i p : Option String) (s2 : ServiceResp) (a2 st : Bool) :
    handleReadmeUpdate u none s a = handleReadmeUpdate u (some placeholderReadme) s a ∧
    (handleReadmeUpdate true none s a).serviceCalled = true ∧
    checkAndUpdateReadme none i p s2 a2 st =
      ⟨false, none, false, false, some failMsgNoReadme⟩ := by
  refine ⟨rfl, ?_, rfl⟩
  cases s with
  | err => rfl
  | ok raw =>
    simp [handleReadmeUpdate]
    split_ifs <;> rfl

/-!  ## Normalization lemmas  -/

theorem isLineTerm_bt_false : isLineTerm btChar = false := by decide

theorem isLineTerm_nl_true : isLineTerm '\n' = true := by decide

theorem removeFenceBt_cons_false (c : Char) (cs : List Char) :
    removeFenceBt false (c :: cs) = c :: removeFenceBt (isLineTerm c) cs := by
  rcases cs with _ | ⟨c2, _ | ⟨c3, _ | ⟨nl, rest⟩⟩⟩ <;> rfl

theorem removeFenceBt_cons_ne (c : Char) (hc : (c == btChar) = false) (flag : Bool)
    (cs : List Char) :
    removeFenceBt flag (c :: cs) = c :: removeFenceBt (isLineTerm c) cs := by
  cases flag
  · exact removeFenceBt_cons_false c cs
  · rcases cs with _ | ⟨c2, _ | ⟨c3, _ | ⟨nl, rest⟩⟩⟩ <;> simp [removeFenceBt, hc]

theorem removeFenceMd_cons_ne (c : Char) (hc : (c == btChar) = false) (flag : Bool)
    (cs : List Char) :
    removeFenceMd flag (c :: cs) = c :: removeFenceMd (isLineTerm c) cs := by
  rw [removeFenceMd.eq_def]
  split <;> simp_all

theorem removeFenceMd_cons_false (c : Char) (cs : List Char) :
    removeFenceMd false (c :: cs) = c :: removeFenceMd (isLineTerm c) cs := by
  rw [removeFenceMd.eq_def]
  split <;> simp_all

theorem removeFenceBt_append (x : List Char) (hx : ∀ c ∈ x, (c == btChar) = false) :
    ∀ (flag : Bool) (rest : List Char),
      removeFenceBt flag (x ++ rest) = x ++ removeFenceBt (anchorAfter flag x) rest := by
  induction x with
  | nil => intro flag rest; rfl
  | cons c t ih =>
    intro flag rest
    have hc : (c == btChar) = false := hx c (List.mem_cons_self c t)
    rw [List.cons_append, removeFenceBt_cons_ne c hc,
      ih (fun d hd => hx d (List.mem_cons_of_mem c hd))]
    rfl

theorem removeFenceMd_append (x : List Char) (hx : ∀ c ∈ x, (c == btChar) = false) :
    ∀ (flag : Bool) (rest : List Char),
      removeFenceMd flag (x ++ rest) = x ++ removeFenceMd (anchorAfter flag x) rest := by
  induction x with
  | nil => intro flag rest; rfl
  | cons c t ih =>
    intro flag rest
    have hc : (c == btChar) = false := hx c (List.mem_cons_self c t)
    rw [List.cons_append, removeFenceMd_cons_ne c hc,
      ih (fun d hd => hx d (List.mem_cons_of_mem c hd))]
    rfl

theorem removeFenceBt_nil (flag : Bool) : removeFenceBt flag [] = [] := rfl

theorem removeFenceMd_nil (flag : Bool) : removeFenceMd flag [] = [] := rfl

theorem removeFenceBt_btfree (x : List Char) (hx : ∀ c ∈ x, (c == btChar) = false)
    (flag : Bool) : removeFenceBt flag x = x := by
  have h := removeFenceBt_append x hx flag []
  simpa [removeFenceBt_nil] using h

theorem removeFenceMd_btfree (x : List Char) (hx : ∀ c ∈ x, (c == btChar) = false)
    (flag : Bool) : removeFenceMd flag x = x := by
  have h := removeFenceMd_append x hx flag []
  simpa [removeFenceMd_nil] using h

theorem removeFenceBt_fence_nl (rest : List Char) :
    removeFenceBt true (btChar :: btChar :: btChar :: '\n' :: rest) =
      removeFenceBt true rest := rfl

theorem removeFenceBt_tail_fence (a : Bool) :
    removeFenceBt a ['\n', btChar, btChar, btChar] = ['\n'] := by
  cases a <;> rfl

theorem removeFenceMd_skip_fence (rest : List Char) :
    removeFenceMd true (btChar :: btChar :: btChar :: '\n' :: rest) =
      btChar :: btChar :: btChar :: '\n' :: removeFenceMd true rest := by
  have h1 : removeFenceMd true (btChar :: btChar :: btChar :: '\n' :: rest) =
      btChar :: removeFenceMd false (btChar :: btChar :: '\n' :: rest) := rfl
  rw [h1]
  simp only [removeFenceMd_cons_false, isLineTerm_bt_false, isLineTerm_nl_true]

theorem removeFenceMd_tail_fence (a : Bool) :
    removeFenceMd a ['\n', btChar, btChar, btChar] = ['\n', btChar, btChar, btChar] := by
  cases a <;> rfl

theorem jsTrim_id (c : Char) (t : List Char) (hc : jsWs c = false) (d : Char) (r : List Char)
    (hrev : (c :: t).reverse = d :: r) (hd : jsWs d = false) : jsTrim (c :: t) = c :: t := by
  unfold jsTrim
  rw [List.dropWhile_cons_of_neg (by simp [hc]), hrev,
    List.dropWhile_cons_of_neg (by simp [hd]), ← hrev, List.reverse_reverse]

theorem dropWhile_facts (l : List Char) (h : jsTrim l = l) :
    l.dropWhile jsWs = l ∧ l.reverse.dropWhile jsWs = l.reverse := by
  unfold jsTrim at h
  have hlen : (((l.dropWhile jsWs).reverse.dropWhile jsWs).reverse).length = l.length := by
    rw [h]
  have l1 : (l.dropWhile jsWs).length ≤ l.length := (List.dropWhile_sublist _).length_le
  have l2 : ((l.dropWhile jsWs).reverse.dropWhile jsWs).length ≤
      ((l.dropWhile jsWs).reverse).length := (List.dropWhile_sublist _).length_le
  simp only [List.length_reverse] at hlen l2
  have e1 : (l.dropWhile jsWs).length = l.length := by omega
  have u_eq : l.dropWhile jsWs = l := (List.dropWhile_sublist _).eq_of_length e1
  rw [u_eq] at h
  have v_eq : l.reverse.dropWhile jsWs = l.reverse := by
    have h2 := congrArg List.reverse h
    simpa using h2
  exact ⟨u_eq, v_eq⟩

theorem head_not_ws (c : Char) (t : List Char)
    (h : List.dropWhile jsWs (c :: t) = c :: t) : jsWs c = false := by
  cases hc : jsWs c with
  | false => rfl
  | true =>
    rw [List.dropWhile_cons_of_pos hc] at h
    have hle : (List.dropWhile jsWs t).length ≤ t.length := (List.dropWhile_sublist _).length_le
    have := congrArg List.length h
    simp at this
    omega

theorem jsTrim_append_nl (x : List Char) (h : jsTrim x = x) : jsTrim (x ++ ['\n']) = x := by
  rcases x with _ | ⟨c, t⟩
  · rfl
  · obtain ⟨h1, h2⟩ := dropWhile_facts (c :: t) h
    have hc : jsWs c = false := head_not_ws c t h1
    unfold jsTrim
    rw [show (c :: t) ++ ['\n'] = c :: (t ++ ['\n']) from rfl]
    rw [List.dropWhile_cons_of_neg (by simp [hc])]
    rw [show (c :: (t ++ ['\n'])).reverse = '\n' :: (c :: t).reverse from by simp]
    rw [List.dropWhile_cons_of_pos (by decide), h2, List.reverse_reverse]

/-- C4 counterexample: a fence-delimiter line occurring strictly in the
interior of the response (no leading or trailing fence, text already
trimmed) is stripped by the normalization, which the claim forbids. -/
theorem normalize_interior_cex :
    normalizeResp wInteriorFence ≠ wInteriorFence ∧
    normalizeResp wInteriorFence = ("a\nb") := by decide

/-- C4 amended: the `g`+`m` flags of the replaces make the normalization
strip fence delimiters at every line start of the response, interior
lines included, not only leading and trailing ones: inserting a fence
line in the middle of a backtick-free trimmed document normalizes the
same as not having it. -/
theorem normalize_strips_interior (x y : String)
    (hx : x.toList ≠ []) (hy : y.toList ≠ [])
    (hbx : ∀ c ∈ x.toList, (c == btChar) = false)
    (hby : ∀ c ∈ y.toList, (c == btChar) = false)
    (htx : jsTrim x.toList = x.toList) (hty : jsTrim y.toList = y.toList) :
    normalizeResp (x ++ "\n```\n" ++ y) = normalizeResp (x ++ "\n" ++ y) := by
  obtain ⟨cx, tx, hxeq⟩ : ∃ c t, x.toList = c :: t := by
    rcases hx2 : x.toList with _ | ⟨c, t⟩
    · exact absurd hx2 hx
    · exact ⟨c, t, rfl⟩
  have hcx : jsWs cx = false := by
    have h1 := (dropWhile_facts x.toList htx).1
    rw [hxeq] at h1
    exact head_not_ws cx tx h1
  obtain ⟨dy, ry, hyrev⟩ : ∃ d r, y.toList.reverse = d :: r := by
    rcases hy2 : y.toList.reverse with _ | ⟨d, r⟩
    · have : y.toList = [] := by
        have := congrArg List.reverse hy2
        simpa using this
      exact absurd this hy
    · exact ⟨d, r, rfl⟩
  have hdy : jsWs dy = false := by
    have h2 := (dropWhile_facts y.toList hty).2
    rw [hyrev] at h2
    exact head_not_ws dy ry h2
  have hL1 : (x ++ "\n```\n" ++ y).toList =
      x.toList ++ ('\n' :: btChar :: btChar :: btChar :: '\n' :: y.toList) := by
    have he : (x ++ "\n```\n" ++ y).toList = x.toList ++ "\n```\n".toList ++ y.toList := rfl
    have hf : "\n```\n".toList = ['\n', btChar, btChar, btChar, '\n'] := by decide
    rw [he, hf]
    simp
  have hL2 : (x ++ "\n" ++ y).toList = x.toList ++ ('\n' :: y.toList) := by
    have he : (x ++ "\n" ++ y).toList = x.toList ++ "\n".toList ++ y.toList := rfl
    rw [he]
    simp
  have hrv1 : (x.toList ++ ('\n' :: btChar :: btChar :: btChar :: '\n' :: y.toList)).reverse
      = dy :: (ry ++ '\n' :: btChar :: btChar :: btChar :: '\n' :: x.toList.reverse) := by
    simp only [List.reverse_append, List.reverse_cons, List.append_assoc, List.cons_append,
      List.nil_append]
    rw [hyrev]
    simp only [List.cons_append]
  have htrim1 : jsTrim (x.toList ++ ('\n' :: btChar :: btChar :: btChar :: '\n' :: y.toList)) =
      x.toList ++ ('\n' :: btChar :: btChar :: btChar :: '\n' :: y.toList) := by
    have hrv1b : (cx :: (tx ++ ('\n' :: btChar :: btChar :: btChar :: '\n' :: y.toList))).reverse
        = dy :: (ry ++ '\n' :: btChar :: btChar :: btChar :: '\n' :: x.toList.reverse) := by
      rw [← List.cons_append, ← hxeq]
      exact hrv1
    rw [hxeq, List.cons_append]
    exact jsTrim_id cx _ hcx dy _ hrv1b hdy
  have hrv2 : (x.toList ++ ('\n' :: y.toList)).reverse
      = dy :: (ry ++ '\n' :: x.toList.reverse) := by
    simp only [List.reverse_append, List.reverse_cons, List.append_assoc, List.cons_append,
      List.nil_append]
    rw [hyrev]
    simp only [List.cons_append]
  have htrim2 : jsTrim (x.toList ++ ('\n' :: y.toList)) =
      x.toList ++ ('\n' :: y.toList) := by
    have hrv2b : (cx :: (tx ++ ('\n' :: y.toList))).reverse
        = dy :: (ry ++ '\n' :: x.toList.reverse) := by
      rw [← List.cons_append, ← hxeq]
      exact hrv2
    rw [hxeq, List.cons_append]
    exact jsTrim_id cx _ hcx dy _ hrv2b hdy
  have hnl : (('\n' : Char) == btChar) = false := by decide
  have hmd1 : removeFenceMd true (x.toList ++ ('\n' :: btChar :: btChar :: btChar :: '\n' :: y.toList)) =
      x.toList ++ ('\n' :: btChar :: btChar :: btChar :: '\n' :: y.toList) := by
    rw [removeFenceMd_append x.toList hbx, removeFenceMd_cons_ne '\n' hnl, isLineTerm_nl_true,
      removeFenceMd_skip_fence, removeFenceMd_btfree y.toList hby]
  have hmd2 : removeFenceMd true (x.toList ++ ('\n' :: y.toList)) =
      x.toList ++ ('\n' :: y.toList) := by
    rw [removeFenceMd_append x.toList hbx, removeFenceMd_cons_ne '\n' hnl, isLineTerm_nl_true,
      removeFenceMd_btfree y.toList hby]
  have hbt1 : removeFenceBt true (x.toList ++ ('\n' :: btChar :: btChar :: btChar :: '\n' :: y.toList)) =
      x.toList ++ ('\n' :: y.toList) := by
    rw [removeFenceBt_append x.toList hbx, removeFenceBt_cons_ne '\n' hnl, isLineTerm_nl_true,
      removeFenceBt_fence_nl, removeFenceBt_btfree y.toList hby]
  have hbt2 : removeFenceBt true (x.toList ++ ('\n' :: y.toList)) =
      x.toList ++ ('\n' :: y.toList) := by
    rw [removeFenceBt_append x.toList hbx, removeFenceBt_cons_ne '\n' hnl, isLineTerm_nl_true,
      removeFenceBt_btfree y.toList hby]
  unfold normalizeResp
  rw [hL1, hL2, htrim1, htrim2, hmd1, hmd2, hbt1, hbt2]

/-- C4 amended witness: the interior fence between two plain lines is
removed. -/
theorem normalize_strips_interior_w :
    normalizeResp (("a") ++ "\n```\n" ++ ("b")) = normalizeResp (("a") ++ "\n" ++ ("b")) :=
  normalize_strips_interior ("a") ("b") (by decide) (by decide) (by decide) (by decide)
    (by decide) (by decide)

/-- C9 counterexample: wrapping a response whose first line starts with
whitespace followed by backticks changes the classified outcome: the
unwrapped response loses its fence to the anchored replace after
trimming, while the wrapped response keeps it. -/
theorem wrap_changes_outcome_cex :
    wWrapped = "```\n" ++ wPlain ++ "\n```" ∧
    handleReadmeUpdate true (some wBaseline2) (ServiceResp.ok wWrapped) true ≠
      handleReadmeUpdate true (some wBaseline2) (ServiceResp.ok wPlain) true := by decide

/-- C9 amended: pre-wrapping a response in triple-backtick fences leaves
the classified outcome unchanged provided the response is trimmed and
contains no backtick character; in general (first line starting with
whitespace and backticks) wrapping can change the outcome. -/
theorem wrap_normalize_amended (x : String)
    (hbt : ∀ c ∈ x.toList, (c == btChar) = false)
    (htr : jsTrim x.toList = x.toList) :
    normalizeResp ("```\n" ++ x ++ "\n```") = normalizeResp x ∧
    ∀ (u : Bool) (r : Option String) (a : Bool),
      handleReadmeUpdate u r (ServiceResp.ok ("```\n" ++ x ++ "\n```")) a =
        handleReadmeUpdate u r (ServiceResp.ok x) a := by
  have hL : ("```\n" ++ x ++ "\n```").toList =
      btChar :: btChar :: btChar :: '\n' :: (x.toList ++ ['\n', btChar, btChar, btChar]) := by
    have he : ("```\n" ++ x ++ "\n```").toList = "```\n".toList ++ x.toList ++ "\n```".toList := rfl
    have h4 : "```\n".toList = [btChar, btChar, btChar, '\n'] := by decide
    have h5 : "\n```".toList = ['\n', btChar, btChar, btChar] := by decide
    rw [he, h4, h5]
    simp
  have hwsbt : jsWs btChar = false := by decide
  have hnorm : normalizeResp ("```\n" ++ x ++ "\n```") = String.mk x.toList := by
    unfold normalizeResp
    rw [hL]
    have htrim1 : jsTrim (btChar :: btChar :: btChar :: '\n' ::
        (x.toList ++ ['\n', btChar, btChar, btChar])) =
        btChar :: btChar :: btChar :: '\n' :: (x.toList ++ ['\n', btChar, btChar, btChar]) := by
      refine jsTrim_id btChar _ hwsbt btChar
        (btChar :: btChar :: '\n' :: (x.toList.reverse ++ ['\n', btChar, btChar, btChar])) ?_ hwsbt
      simp [List.reverse_append]
    rw [htrim1, removeFenceMd_skip_fence, removeFenceMd_append x.toList hbt,
      removeFenceMd_tail_fence, removeFenceBt_fence_nl, removeFenceBt_append x.toList hbt,
      removeFenceBt_tail_fence, jsTrim_append_nl x.toList htr]
  have hnormR : normalizeResp x = String.mk x.toList := by
    unfold normalizeResp
    rw [htr, removeFenceMd_btfree x.toList hbt, removeFenceBt_btfree x.toList hbt, htr]
  refine ⟨by rw [hnorm, hnormR], ?_⟩
  intro u r a
  have hc : normalizeResp ("```\n" ++ x ++ "\n```") = normalizeResp x :=
    hnorm.trans hnormR.symm
  simp only [handleReadmeUpdate, hc]

/-- C9 amended witness: wrapping a plain trimmed document does not
change the normalized result. -/
theorem wrap_normalize_amended_w :
    normalizeResp ("```\n" ++ wHello ++ "\n```") = normalizeResp wHello :=
  (wrap_normalize_amended wHello (by decide) (by decide)).1

end SmartCommit
